import Mathlib

/-
Verification development for the SnakeAI repository (snake.py).

The source is a single Python file containing:
  * module constants GRID_WIDTH = GRID_HEIGHT = 20 and the four unit
    direction deltas UP, DOWN, LEFT, RIGHT with DIRECTIONS = [UP, DOWN, LEFT, RIGHT];
  * class SimpleSnakeAI with get_next_move (greedy delta navigator) and
    is_safe_move (bounds + body-occupancy safety predicate);
  * class Snake with get_head_position, turn, move, grow;
  * class Food with randomize_position (rejection sampling of a random cell
    not on the snake body).

Positions are Python int pairs, embedded as Int × Int.  The grid dimensions
are module-level constants in the source; here they are explicit parameters
(W, H) so that properties can be stated for the general grid, with
GRID_WIDTH = GRID_HEIGHT = 20 recording the source's concrete values.
-/

namespace SnakeAI

/-- A position, a Python `(x, y)` int pair. -/
abbrev Pos := Int × Int

/-- `UP = (0, -1)` from snake.py. -/
def UP : Pos := (0, -1)

/-- `DOWN = (0, 1)` from snake.py. -/
def DOWN : Pos := (0, 1)

/-- `LEFT = (-1, 0)` from snake.py. -/
def LEFT : Pos := (-1, 0)

/-- `RIGHT = (1, 0)` from snake.py. -/
def RIGHT : Pos := (1, 0)

/-- `DIRECTIONS = [UP, DOWN, LEFT, RIGHT]` from snake.py. -/
def DIRECTIONS : List Pos := [UP, DOWN, LEFT, RIGHT]

/-- `GRID_WIDTH = 20` from snake.py. -/
def GRID_WIDTH : Int := 20

/-- `GRID_HEIGHT = 20` from snake.py. -/
def GRID_HEIGHT : Int := 20

/-- The state of class `Snake`: ordered body cells (head first), the current
direction delta, and the target length. -/
structure Snake where
  body : List Pos
  direction : Pos
  length : Nat
deriving DecidableEq

/-- `Snake.get_head_position`: `return self.body[0]`.  The source indexes an
always-nonempty list; `headI` returns the first element (claims about it carry
a nonemptiness hypothesis where it matters). -/
def Snake.get_head_position (s : Snake) : Pos := s.body.headI

/-- The cell reached from `p` by the delta `d`:
`(head[0] + direction[0], head[1] + direction[1])` in the source. -/
def stepPos (p d : Pos) : Pos := (p.1 + d.1, p.2 + d.2)

/-- `SimpleSnakeAI.is_safe_move(pos, snake)`: false when out of the
`[0, W) × [0, H)` bounds, false when `pos in snake.body`, true otherwise.
The bounds in the source are the module constants `GRID_WIDTH`, `GRID_HEIGHT`,
taken here as the parameters `W`, `H`. -/
def is_safe_move (W H : Int) (pos : Pos) (snake : Snake) : Bool :=
  if pos.1 < 0 ∨ W ≤ pos.1 ∨ pos.2 < 0 ∨ H ≤ pos.2 then false
  else if pos ∈ snake.body then false
  else true

/-- The horizontal block of `preferred_directions` in `get_next_move`:
`RIGHT` when `dx > 0`, `LEFT` when `dx < 0`, nothing when `dx = 0`. -/
def horizCandidates (dx : Int) : List Pos :=
  if dx > 0 then [RIGHT] else if dx < 0 then [LEFT] else []

/-- The vertical block of `preferred_directions` in `get_next_move`:
`DOWN` when `dy > 0`, `UP` when `dy < 0`, nothing when `dy = 0`. -/
def vertCandidates (dy : Int) : List Pos :=
  if dy > 0 then [DOWN] else if dy < 0 then [UP] else []

/-- The `preferred_directions` list built in `get_next_move`: when
`abs(dx) >= abs(dy)` the horizontal candidate is appended first, then the
vertical one; otherwise the order is reversed. -/
def preferredDirections (dx dy : Int) : List Pos :=
  if |dy| ≤ |dx| then horizCandidates dx ++ vertCandidates dy
  else vertCandidates dy ++ horizCandidates dx

/-- `SimpleSnakeAI.get_next_move(snake, food_pos)`: try the preferred
directions in order, then all of `DIRECTIONS` in order, then continuing in
`snake.direction`, finally falling back to `RIGHT`.  The Python `for` loops
returning the first safe direction are embedded as `List.find?`. -/
def get_next_move (W H : Int) (snake : Snake) (food_pos : Pos) : Pos :=
  match (preferredDirections (food_pos.1 - snake.get_head_position.1)
      (food_pos.2 - snake.get_head_position.2)).find?
      (fun d => is_safe_move W H (stepPos snake.get_head_position d) snake) with
  | some d => d
  | none =>
    match DIRECTIONS.find?
        (fun d => is_safe_move W H (stepPos snake.get_head_position d) snake) with
    | some d => d
    | none =>
      if is_safe_move W H (stepPos snake.get_head_position snake.direction) snake then
        snake.direction
      else RIGHT

/-- `Snake.turn(point)`: keep the direction when the snake is longer than one
cell and `point` is the componentwise negation of the current direction
(`(point[0] * -1, point[1] * -1) == self.direction`); otherwise set the
direction to `point`. -/
def Snake.turn (s : Snake) (point : Pos) : Snake :=
  if 1 < s.length ∧ (point.1 * -1, point.2 * -1) = s.direction then s
  else { s with direction := point }

/-- `Snake.move()`: push `head + direction` on the front of the body, then pop
the last cell when the body exceeds the target length. -/
def Snake.move (s : Snake) : Snake :=
  let new_body := stepPos s.get_head_position s.direction :: s.body
  { s with body := if s.length < new_body.length then new_body.dropLast else new_body }

/-- `Snake.grow()`: `self.length += 1`. -/
def Snake.grow (s : Snake) : Snake := { s with length := s.length + 1 }

/-- `Snake.__init__`: one-cell body at the grid center, moving `RIGHT`. -/
def Snake.init : Snake :=
  { body := [(GRID_WIDTH / 2, GRID_HEIGHT / 2)], direction := RIGHT, length := 1 }

/-- `Food.randomize_position(snake_body)`: the source loops drawing a uniform
cell `(randint(0, W-1), randint(0, H-1))` until the drawn cell is not in
`snake_body`.  The randomness is embedded as the explicit stream `draws` of
values produced by the `random.randint` pair, so the loop returns the first
draw outside the body, and `none` models a stream on which the loop has not
yet terminated. -/
def randomize_position (draws : List Pos) (snake_body : List Pos) : Option Pos :=
  draws.find? (fun p => !(decide (p ∈ snake_body)))

/-- `Food.__init__`: sets a placeholder position then calls
`randomize_position()` with the default argument `snake_body=[]`. -/
def Food.initPosition (draws : List Pos) : Option Pos :=
  randomize_position draws []

/-- In-bounds predicate on the `[0, W) × [0, H)` grid. -/
def inBounds (W H : Int) (p : Pos) : Prop :=
  0 ≤ p.1 ∧ p.1 < W ∧ 0 ≤ p.2 ∧ p.2 < H

instance (W H : Int) (p : Pos) : Decidable (inBounds W H p) := by
  unfold inBounds; infer_instance

/-- Characterisation of the safety predicate (helper shared by the proofs
below). -/
theorem safe_eq_true_iff (W H : Int) (pos : Pos) (s : Snake) :
    is_safe_move W H pos s = true ↔ inBounds W H pos ∧ pos ∉ s.body := by
  unfold is_safe_move inBounds
  split
  · rename_i hout
    simp only [Bool.false_eq_true, false_iff, not_and]
    intro hb
    omega
  · rename_i hin
    split
    · rename_i hmem
      simp [hmem]
    · rename_i hmem
      simp only [true_iff, hmem, not_false_iff, and_true]
      omega

/-- Claim C3: `is_safe_move(pos, snake)` is true iff `pos` lies within
`[0, W) × [0, H)` and `pos` is not a member of the snake's body snapshot
(the body as it is before the move is applied, so the current tail cell still
counts as occupied). -/
theorem is_safe_move_iff (W H : Int) (pos : Pos) (s : Snake) :
    is_safe_move W H pos s = true ↔ inBounds W H pos ∧ pos ∉ s.body :=
  safe_eq_true_iff W H pos s

/-- Every preferred direction is one of the four direction deltas. -/
theorem preferred_mem_DIRECTIONS (dx dy : Int) :
    ∀ d ∈ preferredDirections dx dy, d ∈ DIRECTIONS := by
  intro d hd
  unfold preferredDirections horizCandidates vertCandidates at hd
  split_ifs at hd <;> simp_all [DIRECTIONS] <;> tauto

/-- Claim C1: whenever at least one of the four directions leads from the head
to a safe cell, the direction returned by `get_next_move` leads to a safe
cell.  (Equivalently: an unsafe direction can be returned only when none of
the four directions is safe.) -/
theorem get_next_move_safe (W H : Int) (s : Snake) (food : Pos)
    (h : ∃ d ∈ DIRECTIONS, is_safe_move W H (stepPos s.get_head_position d) s = true) :
    is_safe_move W H (stepPos s.get_head_position (get_next_move W H s food)) s = true := by
  unfold get_next_move
  split
  · rename_i d hd
    simpa using List.find?_some hd
  · split
    · rename_i d hd
      simpa using List.find?_some hd
    · rename_i hnone
      exfalso
      obtain ⟨d, hdm, hds⟩ := h
      have := List.find?_eq_none.mp hnone d hdm
      simp [hds] at this

/-- Witness for C1 at a concrete grid state. -/
theorem get_next_move_safe_witness :
    is_safe_move 20 20 (stepPos (Snake.mk [(5, 5)] RIGHT 1).get_head_position
      (get_next_move 20 20 (Snake.mk [(5, 5)] RIGHT 1) (9, 5)))
      (Snake.mk [(5, 5)] RIGHT 1) = true :=
  get_next_move_safe 20 20 (Snake.mk [(5, 5)] RIGHT 1) (9, 5)
    ⟨RIGHT, by decide, by decide⟩

/-- Claim C4: `get_next_move` is total — whenever the snake's current
direction is one of the four deltas (as the game maintains), the result is one
of the four directions Up, Down, Left, Right; and when all four directions
are unsafe (so continuing the current direction also is), the fixed fallback
`RIGHT` is returned. -/
theorem get_next_move_total (W H : Int) (s : Snake) (food : Pos)
    (hdir : s.direction ∈ DIRECTIONS) :
    get_next_move W H s food ∈ DIRECTIONS ∧
      ((∀ d ∈ DIRECTIONS, is_safe_move W H (stepPos s.get_head_position d) s = false) →
        get_next_move W H s food = RIGHT) := by
  constructor
  · unfold get_next_move
    split
    · rename_i d hd
      exact preferred_mem_DIRECTIONS _ _ d (List.mem_of_find?_eq_some hd)
    · split
      · rename_i d hd
        exact List.mem_of_find?_eq_some hd
      · split
        · exact hdir
        · simp [DIRECTIONS]
  · intro hall
    have h1 : (preferredDirections (food.1 - s.get_head_position.1)
        (food.2 - s.get_head_position.2)).find?
        (fun d => is_safe_move W H (stepPos s.get_head_position d) s) = none := by
      rw [List.find?_eq_none]
      intro d hd
      simp [hall d (preferred_mem_DIRECTIONS _ _ d hd)]
    have h2 : DIRECTIONS.find?
        (fun d => is_safe_move W H (stepPos s.get_head_position d) s) = none := by
      rw [List.find?_eq_none]
      intro d hd
      simp [hall d hd]
    unfold get_next_move
    rw [h1, h2]
    simp [hall s.direction hdir]

/-- Witness for C4: on a 1×1 grid every direction is unsafe and the fallback
`RIGHT` comes out. -/
theorem get_next_move_total_witness :
    get_next_move 1 1 (Snake.mk [(0, 0)] UP 1) (0, 0) = RIGHT :=
  (get_next_move_total 1 1 (Snake.mk [(0, 0)] UP 1) (0, 0) (by decide)).2 (by decide)

/-- Claim C5: when the body occupies every neighbour of the head except the
cell in the current direction, and that cell is safe, `get_next_move` returns
the current direction. -/
theorem get_next_move_keeps_current (W H : Int) (s : Snake) (food : Pos)
    (hdir : s.direction ∈ DIRECTIONS)
    (hblocked : ∀ d ∈ DIRECTIONS, d ≠ s.direction →
      stepPos s.get_head_position d ∈ s.body)
    (hsafe : is_safe_move W H (stepPos s.get_head_position s.direction) s = true) :
    get_next_move W H s food = s.direction := by
  have huniq : ∀ d ∈ DIRECTIONS,
      is_safe_move W H (stepPos s.get_head_position d) s = true → d = s.direction := by
    intro d hd hds
    by_contra hne
    exact ((safe_eq_true_iff W H _ s).mp hds).2 (hblocked d hd hne)
  unfold get_next_move
  split
  · rename_i d hd
    exact huniq d (preferred_mem_DIRECTIONS _ _ d (List.mem_of_find?_eq_some hd))
      (by simpa using List.find?_some hd)
  · split
    · rename_i d hd
      exact huniq d (List.mem_of_find?_eq_some hd) (by simpa using List.find?_some hd)
    · rename_i hnone
      exfalso
      have := List.find?_eq_none.mp hnone s.direction hdir
      simp [hsafe] at this

/-- Witness for C5: head `(5,5)`, the three neighbours other than the `UP`
cell occupied, current direction `UP`; the returned move is `UP`. -/
theorem get_next_move_keeps_current_witness :
    get_next_move 20 20 (Snake.mk [(5, 5), (5, 6), (4, 5), (6, 5)] UP 4) (0, 9) =
      (Snake.mk [(5, 5), (5, 6), (4, 5), (6, 5)] UP 4).direction :=
  get_next_move_keeps_current 20 20 (Snake.mk [(5, 5), (5, 6), (4, 5), (6, 5)] UP 4)
    (0, 9) (by decide) (by decide) (by decide)

/-- Claim C2: candidate directions are ranked by dominant axis — when
`|dx| ≥ |dy|` the horizontal candidate (matching the sign of `dx`) precedes
the vertical one, otherwise the order is reversed; a zero delta contributes no
candidate; and on an empty 10×10 grid with head `(5,5)` the targets `(9,5)`,
`(5,1)` and `(1,1)` yield `RIGHT`, `UP` and `LEFT` respectively. -/
theorem greedy_priority :
    (∀ dx dy : Int, |dy| ≤ |dx| →
      preferredDirections dx dy = horizCandidates dx ++ vertCandidates dy) ∧
    (∀ dx dy : Int, |dx| < |dy| →
      preferredDirections dx dy = vertCandidates dy ++ horizCandidates dx) ∧
    (∀ dx : Int, 0 < dx → horizCandidates dx = [RIGHT]) ∧
    (∀ dx : Int, dx < 0 → horizCandidates dx = [LEFT]) ∧
    horizCandidates 0 = [] ∧
    (∀ dy : Int, 0 < dy → vertCandidates dy = [DOWN]) ∧
    (∀ dy : Int, dy < 0 → vertCandidates dy = [UP]) ∧
    vertCandidates 0 = [] ∧
    get_next_move 10 10 (Snake.mk [(5, 5)] RIGHT 1) (9, 5) = RIGHT ∧
    get_next_move 10 10 (Snake.mk [(5, 5)] RIGHT 1) (5, 1) = UP ∧
    get_next_move 10 10 (Snake.mk [(5, 5)] RIGHT 1) (1, 1) = LEFT := by
  refine ⟨?_, ?_, ?_, ?_, ?_, ?_, ?_, ?_, by decide, by decide, by decide⟩
  · intro dx dy hle
    unfold preferredDirections
    rw [if_pos hle]
  · intro dx dy hlt
    unfold preferredDirections
    rw [if_neg (by omega)]
  · intro dx hx
    unfold horizCandidates
    rw [if_pos hx]
  · intro dx hx
    unfold horizCandidates
    rw [if_neg (by omega), if_pos hx]
  · decide
  · intro dy hy
    unfold vertCandidates
    rw [if_pos hy]
  · intro dy hy
    unfold vertCandidates
    rw [if_neg (by omega), if_pos hy]
  · decide

/-- Witness for C2 at `dx = 4`, `dy = 0`. -/
theorem greedy_priority_witness :
    |(0 : Int)| ≤ |(4 : Int)| ∧
      preferredDirections 4 0 = horizCandidates 4 ++ vertCandidates 0 :=
  ⟨by decide, greedy_priority.1 4 0 (by decide)⟩

/-- Helper: a successful `randomize_position` returns a cell outside the body
it was given. -/
theorem randomize_position_not_mem (draws snake_body : List Pos) (pos : Pos)
    (hret : randomize_position draws snake_body = some pos) : pos ∉ snake_body := by
  have hp := List.find?_some hret
  simpa using hp

/-- Claim C7: whenever `randomize_position(snake_body)` returns — each random
draw being a cell of `[0, W-1] × [0, H-1]` per `random.randint`'s contract —
the food position is in bounds and not a member of `snake_body`. -/
theorem randomize_position_spec (W H : Int) (draws snake_body : List Pos) (pos : Pos)
    (hdraws : ∀ p ∈ draws, 0 ≤ p.1 ∧ p.1 ≤ W - 1 ∧ 0 ≤ p.2 ∧ p.2 ≤ H - 1)
    (hret : randomize_position draws snake_body = some pos) :
    inBounds W H pos ∧ pos ∉ snake_body := by
  have hmem := List.mem_of_find?_eq_some hret
  have hb := hdraws pos hmem
  refine ⟨⟨hb.1, by omega, hb.2.2.1, by omega⟩, randomize_position_not_mem _ _ _ hret⟩

/-- Witness for C7 at a concrete draw stream and body. -/
theorem randomize_position_spec_witness :
    inBounds 20 20 ((2 : Int), (3 : Int)) ∧
      ((2 : Int), (3 : Int)) ∉ [((0 : Int), (0 : Int))] :=
  randomize_position_spec 20 20 [(2, 3)] [(0, 0)] (2, 3) (by decide) (by decide)

/-- Helper: the head of the body after `Snake.move` is the old head shifted by
the direction, whatever the pop decision. -/
theorem headI_push_pop (nh : Pos) (b : List Pos) (hb : b ≠ []) (n : Nat) :
    (if n < (nh :: b).length then (nh :: b).dropLast else nh :: b).headI = nh := by
  split
  · cases b with
    | nil => exact absurd rfl hb
    | cons x t => simp
  · simp

/-- Claim C8: for a snake whose direction is one of the four unit deltas, the
head after `Snake.move` is at Manhattan distance exactly 1 from the previous
head; and `Snake.turn` only ever installs one of the four unit deltas when fed
one, so the property persists across moves. -/
theorem move_head_adjacent (s : Snake) (hne : s.body ≠ [])
    (hdir : s.direction ∈ DIRECTIONS) :
    |(s.move.get_head_position.1 - s.get_head_position.1)| +
      |(s.move.get_head_position.2 - s.get_head_position.2)| = 1 ∧
    ∀ p ∈ DIRECTIONS, (s.turn p).direction ∈ DIRECTIONS := by
  have hhead : s.move.get_head_position = stepPos s.get_head_position s.direction :=
    headI_push_pop _ s.body hne s.length
  constructor
  · rw [hhead]
    have habs : ∀ d ∈ DIRECTIONS, |d.1| + |d.2| = (1 : Int) := by decide
    have h1 : (stepPos s.get_head_position s.direction).1 - s.get_head_position.1 =
        s.direction.1 := by
      unfold stepPos; ring
    have h2 : (stepPos s.get_head_position s.direction).2 - s.get_head_position.2 =
        s.direction.2 := by
      unfold stepPos; ring
    rw [h1, h2]
    exact habs _ hdir
  · intro p hp
    unfold Snake.turn
    split
    · exact hdir
    · exact hp

/-- Witness for C8 on the initial snake. -/
theorem move_head_adjacent_witness :
    |(Snake.init.move.get_head_position.1 - Snake.init.get_head_position.1)| +
      |(Snake.init.move.get_head_position.2 - Snake.init.get_head_position.2)| = 1 ∧
    ∀ p ∈ DIRECTIONS, (Snake.init.turn p).direction ∈ DIRECTIONS :=
  move_head_adjacent Snake.init (by decide) (by decide)

/-- Claim C9: `Snake.turn(point)` keeps the old direction exactly on the
reversal guard (`length > 1` and `point` the componentwise negation of the
current direction) and installs `point` otherwise; in particular a length-1
snake always gets `point`, reversal included, so for a longer snake the
direction proposed by the AI can be silently discarded. -/
theorem turn_direction_spec (s : Snake) (point : Pos) :
    ((s.turn point).direction =
      if 1 < s.length ∧ (point.1 * -1, point.2 * -1) = s.direction
      then s.direction else point) ∧
    ((s.turn point).direction = s.direction ↔
      (1 < s.length ∧ (point.1 * -1, point.2 * -1) = s.direction) ∨
        point = s.direction) ∧
    (s.length = 1 → (s.turn point).direction = point) := by
  refine ⟨?_, ?_, ?_⟩
  · unfold Snake.turn
    split <;> rfl
  · unfold Snake.turn
    split
    · rename_i h
      exact iff_of_true rfl (Or.inl h)
    · rename_i h
      simp only []
      constructor
      · intro he
        exact Or.inr he
      · rintro (hc | he)
        · exact absurd hc h
        · exact he
  · intro hl
    unfold Snake.turn
    rw [if_neg (by omega)]

/-- Witness for C9: the initial snake (length 1, direction `RIGHT`) accepts
the reversing command `LEFT`. -/
theorem turn_direction_spec_witness :
    (Snake.init.turn LEFT).direction = LEFT :=
  (turn_direction_spec Snake.init LEFT).2.2 rfl

/-- Claim C10: `Food.__init__` calls `randomize_position` with the default
empty body, so it returns the very first random draw — in bounds whenever the
draws are, but possibly on a snake cell (concretely, the draw `(3,3)` lands on
the body `[(3,3), (3,4)]`); only a call that passes the body, as `main` makes
right after construction, guarantees a cell off the body. -/
theorem food_init_ignores_body :
    (∀ draws : List Pos, Food.initPosition draws = draws.head?) ∧
    (∀ W H : Int, ∀ draws : List Pos, (∀ p ∈ draws, inBounds W H p) →
      ∀ pos, Food.initPosition draws = some pos → inBounds W H pos) ∧
    (Food.initPosition [(3, 3)] = some (3, 3) ∧
      ((3 : Int), (3 : Int)) ∈ (Snake.mk [(3, 3), (3, 4)] DOWN 2).body) ∧
    (∀ draws snake_body : List Pos, ∀ pos,
      randomize_position draws snake_body = some pos → pos ∉ snake_body) := by
  refine ⟨?_, ?_, ⟨by decide, by decide⟩, fun a b c => randomize_position_not_mem a b c⟩
  · intro draws
    cases draws with
    | nil => rfl
    | cons a t =>
      unfold Food.initPosition randomize_position
      simp [List.find?_cons]
  · intro W H draws hdraws pos hret
    exact hdraws pos (List.mem_of_find?_eq_some hret)

/-- Witness for C10: the first draw is returned unchanged. -/
theorem food_init_ignores_body_witness :
    Food.initPosition [((7 : Int), (7 : Int))] = [((7 : Int), (7 : Int))].head? :=
  food_init_ignores_body.1 [(7, 7)]

/-- Modelled from the spec: the CycleNavigator is absent from the source file
(only the greedy navigator is implemented); §4.1/§4.2 describe its `build` as
laying the grid out in row-parity serpentine order — row `y` occupies
positions `w*y .. w*y + (w-1)` of the tour, left-to-right on even rows and
right-to-left on odd rows — and closing the tour into a single cycle back to
`(0, 0)`.  `serpIndex` is a cell's position in that serpentine order. -/
def serpIndex (w : Nat) (c : Nat × Nat) : Nat :=
  w * c.2 + (if c.2 % 2 = 0 then c.1 else w - 1 - c.1)

/-- Modelled from the spec: the grid cell sitting at position `i` of the
serpentine order (inverse of `serpIndex` on the grid). -/
def serpCell (w : Nat) (i : Nat) : Nat × Nat :=
  (if (i / w) % 2 = 0 then i % w else w - 1 - i % w, i / w)

/-- Modelled from the spec: the successor map produced by
`CycleNavigator.build(width, height)` — each cell maps to the next cell of
the serpentine order, and the tour's last cell maps back to `(0, 0)`. -/
def cycleSuccessor (w h : Nat) (c : Nat × Nat) : Nat × Nat :=
  serpCell w ((serpIndex w c + 1) % (w * h))

/-- Helper: division and remainder of a serpentine position recover the row
and the offset. -/
theorem serp_div_mod (w : Nat) (hw : 0 < w) (y t : Nat) (ht : t < w) :
    (w * y + t) / w = y ∧ (w * y + t) % w = t := by
  constructor
  · rw [Nat.mul_add_div hw, Nat.div_eq_of_lt ht, Nat.add_zero]
  · rw [Nat.mul_add_mod, Nat.mod_eq_of_lt ht]

/-- Helper: serpentine positions of grid cells are below `w * h`. -/
theorem serpIndex_lt (w h : Nat) (c : Nat × Nat) (hx : c.1 < w) (hy : c.2 < h) :
    serpIndex w c < w * h := by
  unfold serpIndex
  have h1 : (if c.2 % 2 = 0 then c.1 else w - 1 - c.1) < w := by
    split
    · exact hx
    · omega
  calc w * c.2 + (if c.2 % 2 = 0 then c.1 else w - 1 - c.1)
      < w * c.2 + w := by omega
    _ = w * (c.2 + 1) := by ring
    _ ≤ w * h := Nat.mul_le_mul (Nat.le_refl w) (by omega)

/-- Helper: `serpCell` inverts `serpIndex` on grid cells. -/
theorem serpCell_serpIndex (w : Nat) (hw : 0 < w) (x y : Nat) (hx : x < w) :
    serpCell w (serpIndex w (x, y)) = (x, y) := by
  unfold serpIndex serpCell
  dsimp only
  by_cases hy : y % 2 = 0
  · rw [if_pos hy]
    obtain ⟨hdiv, hmod⟩ := serp_div_mod w hw y x hx
    rw [hdiv, hmod, if_pos hy]
  · rw [if_neg hy]
    obtain ⟨hdiv, hmod⟩ := serp_div_mod w hw y (w - 1 - x) (by omega)
    rw [hdiv, hmod, if_neg hy]
    simp only [Prod.mk.injEq, and_true]
    omega

/-- Helper: `serpIndex` inverts `serpCell` everywhere. -/
theorem serpIndex_serpCell (w : Nat) (hw : 0 < w) (i : Nat) :
    serpIndex w (serpCell w i) = i := by
  unfold serpIndex serpCell
  dsimp only
  by_cases hy : (i / w) % 2 = 0
  · rw [if_pos hy, if_pos hy]
    exact Nat.div_add_mod i w
  · rw [if_neg hy, if_neg hy]
    have hm : i % w < w := Nat.mod_lt i hw
    have he : w - 1 - (w - 1 - i % w) = i % w := by omega
    rw [he]
    exact Nat.div_add_mod i w

/-- Helper: iterating the successor map from `(0, 0)` walks the serpentine
order cyclically. -/
theorem cycleSuccessor_iterate (w h : Nat) (hw : 0 < w) (n : Nat) :
    (cycleSuccessor w h)^[n] (0, 0) = serpCell w (n % (w * h)) := by
  induction n with
  | zero =>
    simp [serpCell, Nat.zero_div, Nat.zero_mod]
  | succ n ih =>
    rw [Function.iterate_succ_apply', ih]
    unfold cycleSuccessor
    rw [serpIndex_serpCell w hw, Nat.mod_add_mod]

/-- Claim C6: the (spec-modelled) `CycleNavigator.build` produces, for every
supported grid, a successor map such that following successors from `(0, 0)`
for `w * h` steps visits every grid cell exactly once — the first `w * h`
iterates are pairwise distinct and cover the grid — and the `(w * h)`-th
successor is `(0, 0)` again. -/
theorem cycle_build_valid (w h : Nat) (hw : 0 < w) (hh : 0 < h) :
    (∀ m n : Nat, m < w * h → n < w * h →
      (cycleSuccessor w h)^[m] (0, 0) = (cycleSuccessor w h)^[n] (0, 0) → m = n) ∧
    (∀ c : Nat × Nat, c.1 < w → c.2 < h →
      ∃ n : Nat, n < w * h ∧ (cycleSuccessor w h)^[n] (0, 0) = c) ∧
    (cycleSuccessor w h)^[w * h] (0, 0) = (0, 0) := by
  refine ⟨?_, ?_, ?_⟩
  · intro m n hm hn he
    rw [cycleSuccessor_iterate w h hw, cycleSuccessor_iterate w h hw,
      Nat.mod_eq_of_lt hm, Nat.mod_eq_of_lt hn] at he
    have := congrArg (serpIndex w) he
    rwa [serpIndex_serpCell w hw, serpIndex_serpCell w hw] at this
  · intro c hx hy
    refine ⟨serpIndex w c, serpIndex_lt w h c hx hy, ?_⟩
    rw [cycleSuccessor_iterate w h hw, Nat.mod_eq_of_lt (serpIndex_lt w h c hx hy)]
    obtain ⟨x, y⟩ := c
    exact serpCell_serpIndex w hw x y hx
  · rw [cycleSuccessor_iterate w h hw, Nat.mod_self]
    simp [serpCell, Nat.zero_div, Nat.zero_mod]

/-- Witness for C6 on the 2×2 grid. -/
theorem cycle_build_valid_witness :
    (cycleSuccessor 2 2)^[2 * 2] (0, 0) = (0, 0) :=
  (cycle_build_valid 2 2 (by decide) (by decide)).2.2

end SnakeAI
